import Mathlib

/-
  Verification of the order-total aggregation and invoice-pagination engine
  of the lajutuju rental-order application.

  The two PDF-export pagination variants found in the repository are embedded
  as `planA` (src/src/types.ts, `handleDownloadPDF`, lines 89-108) and `planB`
  (src/unnamed/part_001, `handleDownloadPDF`, lines 58-73).  JavaScript numbers
  are modelled as rationals (ℚ); the drawing surface state is the ordered list
  of `addImage` calls (a `Placement` per call, one page per placement, since
  `addPage` is invoked exactly once between consecutive draws in both
  variants).  For a non-positive page height the source `while` loops do not
  terminate; the embedded loops return `[]` in that (never exercised) case and
  every theorem below assumes a positive page height.

  Strings are modelled as `List Char`; JavaScript `s.substring(0, n)` is
  `List.take n` and `.toUpperCase()` is `List.map Char.toUpper` (the order ids
  are ASCII uuid text, per the schema's `gen_random_uuid()`).

  The line-item subtotal, order-total and monthly-aggregation code is not part
  of the provided sources (only the SQL schema in src/unnamed/part_000
  declares the stored columns), so those components are modelled from the
  specification's own words; each such definition is marked
  `Modelled from the spec:`.
-/

/-- One `pdf.addImage(imgData, 'PNG', 0, y, w, h)` call: vertical offset `y`,
drawn width `w` and drawn height `h` (the x offset is the constant 0 in both
source variants and is omitted). -/
structure Placement where
  y : ℚ
  w : ℚ
  h : ℚ
deriving DecidableEq

/-- The `while (heightLeft > 0)` loop of src/src/types.ts lines 103-108:
each iteration draws the whole scaled image (height `height`) at
`position = heightLeft - height` and then decrements `heightLeft` by
`pdfHeight`.  The extra `0 < pdfHeight` guard makes the embedding total;
the source loop diverges when the page height is not positive. -/
def loopA (pdfHeight width height heightLeft : ℚ) : List Placement :=
  if h : 0 < pdfHeight ∧ 0 < heightLeft then
    ⟨heightLeft - height, width, height⟩ :: loopA pdfHeight width height (heightLeft - pdfHeight)
  else []
  termination_by (⌈heightLeft / pdfHeight⌉).toNat
  decreasing_by
    have hp : (0:ℚ) < pdfHeight := h.1
    have hh : (0:ℚ) < heightLeft := h.2
    have e1 : (heightLeft - pdfHeight) / pdfHeight = heightLeft / pdfHeight - 1 := by
      rw [sub_div, div_self hp.ne']
    have e2 : ⌈heightLeft / pdfHeight - 1⌉ = ⌈heightLeft / pdfHeight⌉ - 1 := by
      have := Int.ceil_sub_int (heightLeft / pdfHeight) 1
      simpa using this
    have e3 : 0 < ⌈heightLeft / pdfHeight⌉ := Int.ceil_pos.mpr (div_pos hh hp)
    rw [e1, e2]
    omega

/-- src/src/types.ts lines 89-108: the pagination of `handleDownloadPDF`.
`ratio = canvasWidth / canvasHeight`, `width = pdfWidth`,
`height = width / ratio` (the source's `ratio` local is inlined), a first
`addImage` at `position = 0`, then `heightLeft = height - pdfHeight` and the
`while` loop `loopA`. -/
def planA (canvasWidth canvasHeight pdfWidth pdfHeight : ℚ) : List Placement :=
  let width := pdfWidth
  let height := width / (canvasWidth / canvasHeight)
  ⟨0, width, height⟩ :: loopA pdfHeight width height (height - pdfHeight)

/-- The `while (remainingHeight > 0)` loop of src/unnamed/part_001 lines
64-73: each iteration draws `heightToPrint = remainingHeight > pdfHeight ?
pdfHeight : remainingHeight` at the running offset `position`, then decrements
both `remainingHeight` and `position` by `pdfHeight` (`addPage` is called
exactly when another iteration follows, so the draws land on consecutive
pages).  The extra `0 < pdfHeight` guard makes the embedding total. -/
def loopB (pdfHeight imgWidth remainingHeight position : ℚ) : List Placement :=
  if h : 0 < pdfHeight ∧ 0 < remainingHeight then
    ⟨position, imgWidth, if pdfHeight < remainingHeight then pdfHeight else remainingHeight⟩
      :: loopB pdfHeight imgWidth (remainingHeight - pdfHeight) (position - pdfHeight)
  else []
  termination_by (⌈remainingHeight / pdfHeight⌉).toNat
  decreasing_by
    have hp : (0:ℚ) < pdfHeight := h.1
    have hh : (0:ℚ) < remainingHeight := h.2
    have e1 : (remainingHeight - pdfHeight) / pdfHeight = remainingHeight / pdfHeight - 1 := by
      rw [sub_div, div_self hp.ne']
    have e2 : ⌈remainingHeight / pdfHeight - 1⌉ = ⌈remainingHeight / pdfHeight⌉ - 1 := by
      have := Int.ceil_sub_int (remainingHeight / pdfHeight) 1
      simpa using this
    have e3 : 0 < ⌈remainingHeight / pdfHeight⌉ := Int.ceil_pos.mpr (div_pos hh hp)
    rw [e1, e2]
    omega

/-- src/unnamed/part_001 lines 58-73: the pagination of its
`handleDownloadPDF`.  `imgWidth = pdfWidth`,
`imgHeight = canvasHeight * pdfWidth / canvasWidth`, then the loop starts at
`position = 0`, `remainingHeight = imgHeight`. -/
def planB (canvasWidth canvasHeight pdfWidth pdfHeight : ℚ) : List Placement :=
  let imgWidth := pdfWidth
  let imgHeight := canvasHeight * pdfWidth / canvasWidth
  loopB pdfHeight imgWidth imgHeight 0

/-- Number of iterations of the variant-A loop: the ceiling of
`heightLeft / pdfHeight`, clamped to 0. -/
theorem loopA_length (pdfHeight width height : ℚ) (hp : 0 < pdfHeight) (hl : ℚ) :
    (loopA pdfHeight width height hl).length = (⌈hl / pdfHeight⌉).toNat := by
  refine loopA.induct pdfHeight width height
    (fun r => (loopA pdfHeight width height r).length = (⌈r / pdfHeight⌉).toNat) ?_ ?_ hl
  · intro x hx ih
    rw [loopA, dif_pos hx]
    have e1 : (x - pdfHeight) / pdfHeight = x / pdfHeight - 1 := by
      rw [sub_div, div_self hp.ne']
    have e2 : ⌈x / pdfHeight - 1⌉ = ⌈x / pdfHeight⌉ - 1 := by
      have := Int.ceil_sub_int (x / pdfHeight) 1
      simpa using this
    have e3 : 0 < ⌈x / pdfHeight⌉ := Int.ceil_pos.mpr (div_pos hx.2 hp)
    rw [List.length_cons, ih, e1, e2]
    omega
  · intro x hx
    rw [loopA, dif_neg hx]
    have hx2 : x ≤ 0 := by
      by_contra hc
      exact hx ⟨hp, lt_of_not_le hc⟩
    have e1 : x / pdfHeight ≤ 0 := div_nonpos_iff.mpr (Or.inr ⟨hx2, hp.le⟩)
    have e2 : ⌈x / pdfHeight⌉ ≤ 0 := by
      have := Int.ceil_le.mpr (by exact_mod_cast e1 : x / pdfHeight ≤ ((0:ℤ):ℚ))
      simpa using this
    simp
    omega

/-- Number of iterations of the variant-B loop: the ceiling of
`remainingHeight / pdfHeight`, clamped to 0 (independent of `position`). -/
theorem loopB_length (pdfHeight imgWidth : ℚ) (hp : 0 < pdfHeight) (r pos : ℚ) :
    (loopB pdfHeight imgWidth r pos).length = (⌈r / pdfHeight⌉).toNat := by
  refine loopB.induct pdfHeight imgWidth
    (fun r pos => (loopB pdfHeight imgWidth r pos).length = (⌈r / pdfHeight⌉).toNat) ?_ ?_ r pos
  · intro x p hx ih
    rw [loopB, dif_pos hx]
    have e1 : (x - pdfHeight) / pdfHeight = x / pdfHeight - 1 := by
      rw [sub_div, div_self hp.ne']
    have e2 : ⌈x / pdfHeight - 1⌉ = ⌈x / pdfHeight⌉ - 1 := by
      have := Int.ceil_sub_int (x / pdfHeight) 1
      simpa using this
    have e3 : 0 < ⌈x / pdfHeight⌉ := Int.ceil_pos.mpr (div_pos hx.2 hp)
    rw [List.length_cons, ih, e1, e2]
    omega
  · intro x p hx
    rw [loopB, dif_neg hx]
    have hx2 : x ≤ 0 := by
      by_contra hc
      exact hx ⟨hp, lt_of_not_le hc⟩
    have e1 : x / pdfHeight ≤ 0 := div_nonpos_iff.mpr (Or.inr ⟨hx2, hp.le⟩)
    have e2 : ⌈x / pdfHeight⌉ ≤ 0 := by
      have := Int.ceil_le.mpr (by exact_mod_cast e1 : x / pdfHeight ≤ ((0:ℤ):ℚ))
      simpa using this
    simp
    omega

/-- The `i`-th draw of the variant-A loop is the whole image (height
`height`) at offset `hl - i * pdfHeight - height`. -/
theorem loopA_getElem (pdfHeight width height : ℚ) :
    ∀ (i : ℕ) (hl : ℚ), i < (loopA pdfHeight width height hl).length →
      (loopA pdfHeight width height hl)[i]? =
        some ⟨hl - i * pdfHeight - height, width, height⟩ := by
  intro i
  induction i with
  | zero =>
    intro hl hlen
    have hx : 0 < pdfHeight ∧ 0 < hl := by
      by_contra hc
      rw [loopA, dif_neg hc] at hlen
      simp at hlen
    rw [loopA, dif_pos hx]
    simp
  | succ i ih =>
    intro hl hlen
    have hx : 0 < pdfHeight ∧ 0 < hl := by
      by_contra hc
      rw [loopA, dif_neg hc] at hlen
      simp at hlen
    rw [loopA, dif_pos hx] at hlen ⊢
    rw [List.length_cons] at hlen
    rw [List.getElem?_cons_succ, ih (hl - pdfHeight) (by omega)]
    congr 2
    push_cast
    ring

/-- Concrete run of the types.ts pagination on the spec's scenario 3:
source 794x2200, page 210x297.  The scaled height is 231000/397 ≈ 581.86. -/
theorem planA_example : planA 794 2200 210 297 =
    [⟨0, 210, 231000/397⟩, ⟨-297, 210, 231000/397⟩] := by
  have e1 : ((210 : ℚ) / (794 / 2200)) = 231000/397 := by norm_num
  simp only [planA, e1]
  rw [loopA]
  norm_num
  rw [loopA]
  norm_num

/-- Concrete run of the part_001 pagination on the same scenario. -/
theorem planB_example : planB 794 2200 210 297 =
    [⟨0, 210, 297⟩, ⟨-297, 210, 113091/397⟩] := by
  have e1 : ((2200 : ℚ) * 210 / 794) = 231000/397 := by norm_num
  simp only [planB, e1]
  rw [loopB]
  norm_num
  rw [loopB]
  norm_num
  rw [loopB]
  norm_num

/-- Claim C1: for positive source and page dimensions, both pagination
variants produce exactly `ceil(scaledHeight / pageHeight)` placements when
`scaledHeight > pageHeight` and exactly 1 placement when
`scaledHeight ≤ pageHeight`, where
`scaledHeight = sourceHeight * pageWidth / sourceWidth`; in particular an
exact positive multiple emits no trailing empty page. -/
theorem c1_pagination_count (sW sH pW pH : ℚ)
    (h1 : 0 < sW) (h2 : 0 < sH) (h3 : 0 < pW) (h4 : 0 < pH) :
    (planA sW sH pW pH).length =
      (if sH * pW / sW ≤ pH then 1 else (⌈(sH * pW / sW) / pH⌉).toNat)
    ∧ (planB sW sH pW pH).length =
      (if sH * pW / sW ≤ pH then 1 else (⌈(sH * pW / sW) / pH⌉).toNat) := by
  have hH : (pW / (sW / sH)) = sH * pW / sW := by
    field_simp
    ring
  have hHpos : 0 < sH * pW / sW := div_pos (mul_pos h2 h3) h1
  constructor
  · simp only [planA]
    rw [List.length_cons, loopA_length pH pW (pW / (sW / sH)) h4, hH]
    by_cases hc : sH * pW / sW ≤ pH
    · rw [if_pos hc]
      have e1 : (sH * pW / sW - pH) / pH ≤ 0 :=
        div_nonpos_iff.mpr (Or.inr ⟨by linarith, h4.le⟩)
      have e2 : ⌈(sH * pW / sW - pH) / pH⌉ ≤ 0 := by
        have := Int.ceil_le.mpr (by exact_mod_cast e1 : (sH * pW / sW - pH) / pH ≤ ((0:ℤ):ℚ))
        simpa using this
      omega
    · rw [if_neg hc]
      have e1 : (sH * pW / sW - pH) / pH = (sH * pW / sW) / pH - 1 := by
        rw [sub_div, div_self h4.ne']
      have e2 : ⌈(sH * pW / sW) / pH - 1⌉ = ⌈(sH * pW / sW) / pH⌉ - 1 := by
        have := Int.ceil_sub_int ((sH * pW / sW) / pH) 1
        simpa using this
      have e3 : 0 < ⌈(sH * pW / sW) / pH⌉ := Int.ceil_pos.mpr (div_pos hHpos h4)
      rw [e1, e2]
      omega
  · simp only [planB]
    rw [loopB_length pH pW h4]
    by_cases hc : sH * pW / sW ≤ pH
    · rw [if_pos hc]
      have e1 : (sH * pW / sW) / pH ≤ 1 := by
        rw [div_le_one h4]
        exact hc
      have e2 : ⌈(sH * pW / sW) / pH⌉ ≤ 1 := by
        have := Int.ceil_le.mpr (by exact_mod_cast e1 : (sH * pW / sW) / pH ≤ ((1:ℤ):ℚ))
        simpa using this
      have e3 : 0 < ⌈(sH * pW / sW) / pH⌉ := Int.ceil_pos.mpr (div_pos hHpos h4)
      omega
    · rw [if_neg hc]

/-- Witness for C1: the spec's scenario 3 (794x2200 source, 210x297 page,
ceiling 2) and an exact-multiple input (scaled height 200 on page height 100,
ceiling 2: no trailing empty page). -/
theorem c1_pagination_count_witness :
    ((planA 794 2200 210 297).length =
       (if (2200 : ℚ) * 210 / 794 ≤ 297 then 1 else (⌈((2200 : ℚ) * 210 / 794) / 297⌉).toNat)
     ∧ (planB 794 2200 210 297).length =
       (if (2200 : ℚ) * 210 / 794 ≤ 297 then 1 else (⌈((2200 : ℚ) * 210 / 794) / 297⌉).toNat))
    ∧ ((planA 100 200 100 100).length =
       (if (200 : ℚ) * 100 / 100 ≤ 100 then 1 else (⌈((200 : ℚ) * 100 / 100) / 100⌉).toNat)
     ∧ (planB 100 200 100 100).length =
       (if (200 : ℚ) * 100 / 100 ≤ 100 then 1 else (⌈((200 : ℚ) * 100 / 100) / 100⌉).toNat)) :=
  ⟨c1_pagination_count 794 2200 210 297
     (by norm_num) (by norm_num) (by norm_num) (by norm_num),
   c1_pagination_count 100 200 100 100
     (by norm_num) (by norm_num) (by norm_num) (by norm_num)⟩

/-- Claim C2: in the types.ts variant, whenever the scaled height exceeds the
page height every placement draws the entire scaled image (draw height
`sourceHeight * pageWidth / sourceWidth`) and the `(k+1)`-th placement sits at
vertical offset `-k * pageHeight` (0 on the first page, non-positive
afterwards). -/
theorem c2_full_image_at_running_offset (sW sH pW pH : ℚ)
    (h1 : 0 < sW) (h2 : 0 < sH) (h3 : 0 < pW) (h4 : 0 < pH)
    (h5 : pH < sH * pW / sW) :
    ∀ i : ℕ, i < (planA sW sH pW pH).length →
      (planA sW sH pW pH)[i]? = some ⟨-(i : ℚ) * pH, pW, sH * pW / sW⟩ := by
  have hH : (pW / (sW / sH)) = sH * pW / sW := by
    field_simp
    ring
  intro i hi
  match i with
  | 0 =>
    simp only [planA, List.getElem?_cons_zero, Option.some.injEq, Placement.mk.injEq]
    refine ⟨by norm_num, trivial, hH⟩
  | Nat.succ i =>
    simp only [planA, List.length_cons] at hi
    simp only [planA, List.getElem?_cons_succ]
    rw [loopA_getElem pH pW (pW / (sW / sH)) i (pW / (sW / sH) - pH) (by omega)]
    congr 2
    rw [hH]
    push_cast
    ring

/-- Witness for C2: on scenario 3 the plan has 2 placements, the first at
offset 0 and the second at offset -297, each drawing the full scaled
height. -/
theorem c2_full_image_at_running_offset_witness :
    (planA 794 2200 210 297).length = 2
    ∧ (planA 794 2200 210 297)[0]? = some ⟨-((0 : ℕ) : ℚ) * 297, 210, 2200 * 210 / 794⟩
    ∧ (planA 794 2200 210 297)[1]? = some ⟨-((1 : ℕ) : ℚ) * 297, 210, 2200 * 210 / 794⟩ :=
  ⟨by rw [planA_example]; rfl,
   c2_full_image_at_running_offset 794 2200 210 297
     (by norm_num) (by norm_num) (by norm_num) (by norm_num) (by norm_num)
     0 (by rw [planA_example]; norm_num),
   c2_full_image_at_running_offset 794 2200 210 297
     (by norm_num) (by norm_num) (by norm_num) (by norm_num) (by norm_num)
     1 (by rw [planA_example]; norm_num)⟩

/-- Claim C3: the two pagination variants are not equivalent: on scenario 3
(whose scaled height 231000/397 is not an exact integer multiple of the page
height 297) they produce different placement sequences. -/
theorem c3_variants_not_equivalent :
    (¬ ∃ n : ℤ, (2200 * 210 / 794 : ℚ) = n * 297)
    ∧ planA 794 2200 210 297 ≠ planB 794 2200 210 297 := by
  constructor
  · rintro ⟨n, hn⟩
    have e0 : (2200 * 210 / 794 : ℚ) = 231000/397 := by norm_num
    rw [e0] at hn
    have e1 : (231000 : ℚ) = n * 117909 := by
      field_simp at hn
      linarith
    have e2 : (231000 : ℤ) = n * 117909 := by exact_mod_cast e1
    omega
  · rw [planA_example, planB_example]
    simp only [ne_eq, List.cons.injEq, Placement.mk.injEq]
    norm_num

/-- src/src/types.ts line 110: the saved filename
`Invoice-${order.id.substring(0, 8).toUpperCase()}.pdf` (strings as
character lists; `Char.toUpper` matches `toUpperCase` on the ASCII uuid order
ids produced by the schema's `gen_random_uuid()`). -/
def filenameA (id : List Char) : List Char :=
  ("Invoice-").data ++ (id.take 8).map Char.toUpper ++ (".pdf").data

/-- src/unnamed/part_001 line 75: the saved filename `Invoice-${order.id}.pdf`
with the raw, untruncated, case-preserved id. -/
def filenameB (id : List Char) : List Char :=
  ("Invoice-").data ++ id ++ (".pdf").data

/-- The seven inline style properties saved and mutated by src/src/types.ts
lines 58-66 before capture (values as strings). -/
structure StyleA where
  position : String
  left : String
  top : String
  width : String
  maxWidth : String
  zIndex : String
  transform : String
deriving DecidableEq

/-- The two inline style properties saved and mutated by src/unnamed/part_001
lines 35-40 before capture. -/
structure StyleB where
  width : String
  maxWidth : String
deriving DecidableEq

/-- src/src/types.ts lines 60-66: the capture-preparation style mutation. -/
def applyCaptureStylesA (st : StyleA) : StyleA :=
  { st with
    position := "absolute"
    left := "-9999px"
    top := "0"
    width := "794px"
    maxWidth := "none"
    zIndex := "-1"
    transform := "scale(1)" }

/-- src/src/types.ts line 115, the `finally` block:
`Object.assign(invoiceElement.style, originalStyles)` writes every saved
property back onto the current style. -/
def restoreStylesA (originalStyles current : StyleA) : StyleA :=
  { current with
    position := originalStyles.position
    left := originalStyles.left
    top := originalStyles.top
    width := originalStyles.width
    maxWidth := originalStyles.maxWidth
    zIndex := originalStyles.zIndex
    transform := originalStyles.transform }

/-- Observable outcome of one types.ts export attempt: the `addImage` calls
issued and the filename passed to `pdf.save` (none when no save happened). -/
structure RunA where
  placements : List Placement
  saved : Option (List Char)
deriving DecidableEq

/-- Observable outcome of one successful part_001 export: the `addImage`
calls issued and the filename passed to `pdf.save`. -/
structure RunB where
  placements : List Placement
  saved : List Char
deriving DecidableEq

/-- src/src/types.ts lines 55-117, `handleDownloadPDF`: the whole export
attempt as a function of the invoice element's presence, its incoming inline
style and the raster capture's outcome (`Except.error` = `html2canvas`
threw, `Except.ok (w, h)` = returned canvas dimensions).  Returns the
element's final style and the run's observable outcome.  The `catch` block
only logs and alerts, so a throw yields no save; the `finally` block
restores the saved style on both the success and the error path. -/
def handleDownloadPDF_A (id : List Char) (refPresent : Bool) (st : StyleA)
    (capture : Except Unit (ℚ × ℚ)) (pdfWidth pdfHeight : ℚ) : StyleA × RunA :=
  if refPresent then
    let originalStyles := st
    let mutated := applyCaptureStylesA st
    match capture with
    | Except.error _ => (restoreStylesA originalStyles mutated, ⟨[], none⟩)
    | Except.ok (canvasWidth, canvasHeight) =>
        (restoreStylesA originalStyles mutated,
          ⟨planA canvasWidth canvasHeight pdfWidth pdfHeight, some (filenameA id)⟩)
  else (st, ⟨[], none⟩)

/-- src/unnamed/part_001 lines 31-76, its `handleDownloadPDF`: there is no
try/catch, so a capture throw propagates (`Except.error`) before the
style-restore lines 53-54 ever run; the style is restored only after a
successful capture.  `Except.ok none` models the early `return` taken when
the ref is absent. -/
def handleDownloadPDF_B (id : List Char) (refPresent : Bool) (st : StyleB)
    (capture : Except Unit (ℚ × ℚ)) (pdfWidth pdfHeight : ℚ) :
    StyleB × Except Unit (Option RunB) :=
  if refPresent then
    let originalWidth := st.width
    let originalMaxWidth := st.maxWidth
    let mutated : StyleB := { width := "100%", maxWidth := "none" }
    match capture with
    | Except.error e => (mutated, Except.error e)
    | Except.ok (canvasWidth, canvasHeight) =>
        let restored : StyleB := { width := originalWidth, maxWidth := originalMaxWidth }
        (restored,
          Except.ok (some ⟨planB canvasWidth canvasHeight pdfWidth pdfHeight, filenameB id⟩))
  else (st, Except.ok none)

/-- A sample incoming inline style for the types.ts invoice element. -/
def stA0 : StyleA := ⟨"static", "auto", "auto", "600px", "100%", "0", "none"⟩

/-- A sample incoming inline style for the part_001 invoice element. -/
def stB0 : StyleB := ⟨"600px", "100%"⟩

/-- Counterexample to claim C7: for order id "abcdef123" the part_001 export
path saves `Invoice-abcdef123.pdf`, not the claimed
`Invoice-` + first-8-uppercase + `.pdf` shape (which only types.ts
produces), so the repository does not have a single filename shape. -/
theorem c7_counterexample :
    (handleDownloadPDF_B ("abcdef123").data true stB0
        (Except.ok (794, 2200)) 210 297).2 =
      Except.ok (some ⟨planB 794 2200 210 297, filenameB (("abcdef123").data)⟩)
    ∧ filenameB (("abcdef123").data) ≠ ("Invoice-ABCDEF12.pdf").data
    ∧ filenameA (("abcdef123").data) = ("Invoice-ABCDEF12.pdf").data :=
  ⟨rfl, by decide, by decide⟩

/-- Claim C7 amended: each export path saves under a fixed, deterministic
filename, but the two paths disagree: types.ts saves `Invoice-` + the first
8 characters of the order id uppercased + `.pdf`, while part_001 saves
`Invoice-` + the raw id + `.pdf`. -/
theorem c7_filename_shapes (id : List Char) (stA : StyleA) (stB : StyleB)
    (cw chh pdfWidth pdfHeight : ℚ) :
    (handleDownloadPDF_A id true stA (Except.ok (cw, chh)) pdfWidth pdfHeight).2.saved =
      some (("Invoice-").data ++ (id.take 8).map Char.toUpper ++ (".pdf").data)
    ∧ (handleDownloadPDF_B id true stB (Except.ok (cw, chh)) pdfWidth pdfHeight).2 =
      Except.ok (some ⟨planB cw chh pdfWidth pdfHeight,
        ("Invoice-").data ++ id ++ (".pdf").data⟩) :=
  ⟨rfl, rfl⟩

/-- Counterexample to claim C8: a capture that returns zero canvas height
(dimensions 100 x 0) is not rejected - both pipelines proceed and still
invoke `pdf.save`, so the zero-dimension branch of the claim fails. -/
theorem c8_counterexample :
    (handleDownloadPDF_A ("abc").data true stA0 (Except.ok (100, 0)) 210 297).2.saved =
      some (filenameA (("abc").data))
    ∧ (handleDownloadPDF_B ("abc").data true stB0 (Except.ok (100, 0)) 210 297).2 =
      Except.ok (some ⟨planB 100 0 210 297, filenameB (("abc").data)⟩) :=
  ⟨rfl, rfl⟩

/-- Claim C8 amended: when the raster capture throws, neither variant saves
(types.ts catches and alerts, drawing nothing; part_001 propagates the
error before any draw or save), but a capture returning zero dimensions is
not checked: the pipeline proceeds and still invokes `pdf.save`. -/
theorem c8_abort_on_throw_only (id : List Char) (stA : StyleA) (stB : StyleB)
    (pdfWidth pdfHeight cw : ℚ) :
    (handleDownloadPDF_A id true stA (Except.error ()) pdfWidth pdfHeight).2.saved = none
    ∧ (handleDownloadPDF_A id true stA (Except.error ()) pdfWidth pdfHeight).2.placements = []
    ∧ (handleDownloadPDF_B id true stB (Except.error ()) pdfWidth pdfHeight).2 =
        Except.error ()
    ∧ (handleDownloadPDF_A id true stA (Except.ok (cw, 0)) pdfWidth pdfHeight).2.saved =
        some (filenameA id) :=
  ⟨rfl, rfl, rfl, rfl⟩

/-- Counterexample to claim C9: in the part_001 variant a throwing capture
exits before the restore lines run, leaving the mutated style
(`width = "100%"`, `maxWidth = "none"`) in place, so the style after the
call differs from the style before it. -/
theorem c9_counterexample :
    (handleDownloadPDF_B ("x").data true ⟨"500px", "800px"⟩
        (Except.error ()) 210 297).1 ≠ ⟨"500px", "800px"⟩ := by
  decide

/-- Claim C9 amended: the types.ts variant restores the saved style
properties on every exit path (early return, success, and thrown capture,
via `finally`); the part_001 variant restores them on the early-return and
success paths only - a thrown capture leaves `width = "100%"` and
`maxWidth = "none"` behind. -/
theorem c9_style_restoration (id : List Char) (refPresent : Bool) (stA : StyleA)
    (stB : StyleB) (capture : Except Unit (ℚ × ℚ)) (pdfWidth pdfHeight cw chh : ℚ) :
    (handleDownloadPDF_A id refPresent stA capture pdfWidth pdfHeight).1 = stA
    ∧ (handleDownloadPDF_B id refPresent stB (Except.ok (cw, chh)) pdfWidth pdfHeight).1 = stB
    ∧ (handleDownloadPDF_B id true stB (Except.error ()) pdfWidth pdfHeight).1 =
        { width := "100%", maxWidth := "none" } := by
  refine ⟨?_, ?_, rfl⟩
  · cases refPresent
    · rfl
    · cases capture with
      | error e => rfl
      | ok wh =>
        obtain ⟨w1, h1⟩ := wh
        rfl
  · cases refPresent
    · rfl
    · rfl

/-- Claim C10: filename derivation in types.ts is total: `substring(0, 8)`
yields the first `min 8 (length id)` characters, the whole id when it is
shorter than 8 characters, with no error and no padding. -/
theorem c10_filename_total (id : List Char) :
    filenameA id =
      ("Invoice-").data ++ (id.take (min 8 id.length)).map Char.toUpper ++ (".pdf").data
    ∧ (id.take 8).length = min 8 id.length
    ∧ (id.length < 8 →
        filenameA id = ("Invoice-").data ++ id.map Char.toUpper ++ (".pdf").data) := by
  refine ⟨?_, ?_, ?_⟩
  · have e0 : id.take (min 8 id.length) = id.take 8 := by
      rcases le_total 8 id.length with hle | hle
      · rw [min_eq_left hle]
      · rw [min_eq_right hle, List.take_of_length_le hle, List.take_length]
    rw [filenameA, e0]
  · simpa using List.length_take 8 id
  · intro hlt
    rw [filenameA, List.take_of_length_le (le_of_lt hlt)]

/-- Witness for C10 at the 3-character id "abc": the filename is
`Invoice-ABC.pdf`, untruncated and unpadded. -/
theorem c10_filename_total_witness :
    filenameA (("abc").data) =
      ("Invoice-").data ++ (("abc").data).map Char.toUpper ++ (".pdf").data :=
  (c10_filename_total (("abc").data)).2.2 (by decide)

/-- Modelled from the spec: "standard currency rounding
(round-half-away-from-zero)" (§4.1).  For nonnegative x this is
`⌊x + 1/2⌋`; for negative x it mirrors to `-⌊-x + 1/2⌋`. -/
def roundHalfAwayFromZero (x : ℚ) : ℤ :=
  if 0 ≤ x then ⌊x + 1/2⌋ else -⌊-x + 1/2⌋

/-- Modelled from the spec: rounding "to 2 decimal places" with
round-half-away-from-zero (§4.1): round `x * 100` to an integer and divide
back by 100. -/
def round2 (x : ℚ) : ℚ := (roundHalfAwayFromZero (x * 100) : ℚ) / 100

/-- Modelled from the spec: the LineItemCalculator contract (§4.1).  Its
implementation (the order form component) is not among the provided sources;
only the schema's `subtotal numeric(12, 2)` column with the comment
`quantity * daily_rate * days` (src/unnamed/part_000 lines 33 and 75-84)
remains.  The subtotal is the exact product rounded to 2 decimal places. -/
def subtotal (quantity : ℤ) (daily_rate : ℚ) (days : ℤ) : ℚ :=
  round2 ((quantity : ℚ) * daily_rate * (days : ℚ))

/-- `round2 0 = 0`. -/
theorem round2_zero : round2 0 = 0 := by
  unfold round2 roundHalfAwayFromZero
  rw [if_pos (by norm_num : (0:ℚ) ≤ 0 * 100)]
  have e1 : ⌊(0:ℚ) * 100 + 1/2⌋ = (0:ℤ) := by
    rw [Int.floor_eq_iff]
    norm_num
  rw [e1]
  norm_num

/-- Claim C4: on the valid domain (quantity ≥ 1, daily_rate ≥ 0, days ≥ 1;
values outside it are the caller's InvalidInput error, nothing is clamped),
the subtotal is non-negative and equals the exact product
quantity * daily_rate * days rounded to 2 decimal places
half-away-from-zero; concretely subtotal(2, 150000, 3) = 900000. -/
theorem c4_subtotal (quantity : ℤ) (daily_rate : ℚ) (days : ℤ)
    (hq : 1 ≤ quantity) (hr : 0 ≤ daily_rate) (hd : 1 ≤ days) :
    0 ≤ subtotal quantity daily_rate days
    ∧ subtotal quantity daily_rate days =
        round2 ((quantity : ℚ) * daily_rate * (days : ℚ))
    ∧ subtotal 2 150000 3 = 900000 := by
  refine ⟨?_, rfl, ?_⟩
  · have hprod : 0 ≤ (quantity : ℚ) * daily_rate * (days : ℚ) := by
      have hq2 : (0:ℚ) ≤ (quantity : ℚ) := by exact_mod_cast le_trans zero_le_one hq
      have hd2 : (0:ℚ) ≤ (days : ℚ) := by exact_mod_cast le_trans zero_le_one hd
      exact mul_nonneg (mul_nonneg hq2 hr) hd2
    unfold subtotal round2 roundHalfAwayFromZero
    rw [if_pos (by linarith : (0:ℚ) ≤ (quantity : ℚ) * daily_rate * (days : ℚ) * 100)]
    have hfl : (0:ℤ) ≤ ⌊(quantity : ℚ) * daily_rate * (days : ℚ) * 100 + 1/2⌋ := by
      apply Int.floor_nonneg.mpr
      linarith
    apply div_nonneg
    · exact_mod_cast hfl
    · norm_num
  · have e0 : ((2:ℤ) : ℚ) * 150000 * ((3:ℤ) : ℚ) = 900000 := by norm_num
    unfold subtotal round2 roundHalfAwayFromZero
    rw [e0, if_pos (by norm_num : (0:ℚ) ≤ 900000 * 100)]
    have e1 : ⌊(900000:ℚ) * 100 + 1/2⌋ = (90000000:ℤ) := by
      rw [Int.floor_eq_iff]
      norm_num
    rw [e1]
    norm_num

/-- Witness for C4 at quantity 2, daily rate 150000, days 3 (spec
scenario 1). -/
theorem c4_subtotal_witness :
    0 ≤ subtotal 2 150000 3
    ∧ subtotal 2 150000 3 = round2 (((2:ℤ) : ℚ) * 150000 * ((3:ℤ) : ℚ))
    ∧ subtotal 2 150000 3 = 900000 :=
  c4_subtotal 2 150000 3 (by norm_num) (by norm_num) (by norm_num)

/-- Modelled from the spec: a stored line item (schema in
src/unnamed/part_000 lines 75-84): `car_type`, `quantity`, `daily_rate`,
`days` and the stored `subtotal` column. -/
structure LineItem where
  car_type : String
  quantity : ℤ
  daily_rate : ℚ
  days : ℤ
  subtotal : ℚ
deriving DecidableEq

/-- Modelled from the spec: the OrderTotalAggregator contract (§4.2), whose
implementation is not among the provided sources (only the schema's
`total_amount numeric(12, 2)` column, src/unnamed/part_000 line 68).  Sums
each item's subtotal, recomputed via the LineItemCalculator - the stored
`subtotal` field is never trusted - with the same rounding discipline; the
empty list yields 0. -/
def total (items : List LineItem) : ℚ :=
  round2 ((items.map (fun it => subtotal it.quantity it.daily_rate it.days)).sum)

/-- Claim C5: the order total equals the rounded sum of each item's
independently recomputed subtotal, is invariant under every permutation of
the item list, and is 0 on the empty list. -/
theorem c5_total (items itemsPermuted : List LineItem)
    (hperm : items.Perm itemsPermuted) :
    total items =
      round2 ((items.map (fun it => subtotal it.quantity it.daily_rate it.days)).sum)
    ∧ total items = total itemsPermuted
    ∧ total ([] : List LineItem) = 0 := by
  refine ⟨rfl, ?_, ?_⟩
  · unfold total
    rw [(hperm.map (fun it => subtotal it.quantity it.daily_rate it.days)).sum_eq]
  · unfold total
    rw [List.map_nil, List.sum_nil, round2_zero]

/-- Spec scenario 1 as a line item (with its stored subtotal column). -/
def itemA : LineItem := ⟨"Avanza", 2, 150000, 3, 900000⟩

/-- A second line item. -/
def itemB : LineItem := ⟨"Xenia", 1, 250000, 1, 250000⟩

/-- Witness for C5 on a two-item list and its swap. -/
theorem c5_total_witness :
    total [itemA, itemB] =
      round2 (([itemA, itemB].map (fun it => subtotal it.quantity it.daily_rate it.days)).sum)
    ∧ total [itemA, itemB] = total [itemB, itemA]
    ∧ total ([] : List LineItem) = 0 :=
  c5_total [itemA, itemB] [itemB, itemA] (List.Perm.swap itemB itemA [])

/-- Modelled from the spec: the order fields the MonthlyAggregator reads
(§4.3) - the calendar year and month of `order_date` and the stored
`total_amount`, which this aggregator trusts.  Its implementation (the
MonthlyReport component) is not among the provided sources. -/
structure RentalOrder where
  year : ℤ
  month : ℕ
  total_amount : ℚ
deriving DecidableEq

/-- Modelled from the spec: one MonthlyReportRow (§3). -/
structure MonthlyReportRow where
  year : ℤ
  month : ℕ
  order_count : ℕ
  total_revenue : ℚ
deriving DecidableEq

/-- The (year, month) grouping key of an order. -/
def monthKey (o : RentalOrder) : ℤ × ℕ := (o.year, o.month)

/-- Chronological order on (year, month) keys. -/
def keyLE (a b : ℤ × ℕ) : Prop := a.1 < b.1 ∨ (a.1 = b.1 ∧ a.2 ≤ b.2)

instance : DecidableRel keyLE := fun a b => by
  unfold keyLE
  infer_instance

instance : IsTotal (ℤ × ℕ) keyLE := ⟨by
  intro a b
  unfold keyLE
  omega⟩

instance : IsTrans (ℤ × ℕ) keyLE := ⟨by
  intro a b c hab hbc
  unfold keyLE at hab hbc ⊢
  omega⟩

/-- The summary row for one month key: that month's order count and the sum
of those orders' stored `total_amount`. -/
def rowFor (orders : List RentalOrder) (k : ℤ × ℕ) : MonthlyReportRow :=
  { year := k.1
    month := k.2
    order_count := (orders.filter (fun o => decide (monthKey o = k))).length
    total_revenue :=
      ((orders.filter (fun o => decide (monthKey o = k))).map RentalOrder.total_amount).sum }

/-- Modelled from the spec: the MonthlyAggregator (§4.3): one row per
distinct (year, month) present in the input (sparse - zero-order months are
omitted), ordered chronologically ascending. -/
def summarize (orders : List RentalOrder) : List MonthlyReportRow :=
  (List.insertionSort keyLE ((orders.map monthKey).dedup)).map (rowFor orders)

/-- The spec's scenario 4 input: two January-2024 orders with stored totals
500000 and 300000, and one February-2024 order with stored total 700000. -/
def exOrders : List RentalOrder :=
  [⟨2024, 1, 500000⟩, ⟨2024, 1, 300000⟩, ⟨2024, 2, 700000⟩]

/-- Scenario 4 evaluated: the summary is January (2 orders, 800000) then
February (1 order, 700000). -/
theorem summarize_example :
    summarize exOrders = [⟨2024, 1, 2, 800000⟩, ⟨2024, 2, 1, 700000⟩] := by
  have ed : (exOrders.map monthKey).dedup = [((2024:ℤ), (1:ℕ)), (2024, 2)] := by decide
  have es : List.insertionSort keyLE [((2024:ℤ), (1:ℕ)), (2024, 2)] =
      [(2024, 1), (2024, 2)] := by decide
  have r1 : rowFor exOrders ((2024:ℤ), (1:ℕ)) = ⟨2024, 1, 2, 800000⟩ := by
    have hf : exOrders.filter (fun o => decide (monthKey o = ((2024:ℤ), (1:ℕ)))) =
        [⟨2024, 1, 500000⟩, ⟨2024, 1, 300000⟩] := by decide
    unfold rowFor
    rw [hf]
    norm_num
  have r2 : rowFor exOrders ((2024:ℤ), (2:ℕ)) = ⟨2024, 2, 1, 700000⟩ := by
    have hf : exOrders.filter (fun o => decide (monthKey o = ((2024:ℤ), (2:ℕ)))) =
        [⟨2024, 2, 700000⟩] := by decide
    unfold rowFor
    rw [hf]
    norm_num
  unfold summarize
  rw [ed, es, List.map_cons, List.map_cons, List.map_nil, r1, r2]

/-- Claim C6: the monthly summary has exactly one row per distinct
(year, month) occurring in the input (months with no orders are omitted),
ordered chronologically ascending; each row's order count is the number of
that month's orders and its revenue is the sum of their stored
`total_amount`; on scenario 4 this yields January (2, 800000) then
February (1, 700000). -/
theorem c6_monthly_summary (orders : List RentalOrder) :
    List.Sorted keyLE ((summarize orders).map (fun r => (r.year, r.month)))
    ∧ ((summarize orders).map (fun r => (r.year, r.month))).Nodup
    ∧ (∀ k : ℤ × ℕ, k ∈ (summarize orders).map (fun r => (r.year, r.month)) ↔
        k ∈ orders.map monthKey)
    ∧ (∀ r ∈ summarize orders,
        r.order_count =
          (orders.filter (fun o => decide (monthKey o = (r.year, r.month)))).length
        ∧ r.total_revenue =
          ((orders.filter (fun o => decide (monthKey o = (r.year, r.month)))).map
            RentalOrder.total_amount).sum)
    ∧ summarize exOrders = [⟨2024, 1, 2, 800000⟩, ⟨2024, 2, 1, 700000⟩] := by
  have hkey : (summarize orders).map (fun r => (r.year, r.month)) =
      List.insertionSort keyLE ((orders.map monthKey).dedup) := by
    unfold summarize
    rw [List.map_map]
    have hcomp : ((fun r : MonthlyReportRow => (r.year, r.month)) ∘ rowFor orders) = id := by
      funext k
      rfl
    rw [hcomp, List.map_id]
  refine ⟨?_, ?_, ?_, ?_, summarize_example⟩
  · rw [hkey]
    exact List.sorted_insertionSort keyLE _
  · rw [hkey]
    exact ((List.perm_insertionSort keyLE _).nodup_iff).mpr (List.nodup_dedup _)
  · intro k
    rw [hkey, (List.perm_insertionSort keyLE _).mem_iff, List.mem_dedup]
  · intro r hr
    unfold summarize at hr
    obtain ⟨k, hk, rfl⟩ := List.mem_map.mp hr
    exact ⟨rfl, rfl⟩

/-- Witness for C6: the general theorem applied to the scenario 4 input,
with the concrete membership fact that March 2024 (no orders) is absent. -/
theorem c6_monthly_summary_witness :
    summarize exOrders = [⟨2024, 1, 2, 800000⟩, ⟨2024, 2, 1, 700000⟩]
    ∧ List.Sorted keyLE ((summarize exOrders).map (fun r => (r.year, r.month)))
    ∧ (((2024:ℤ), (3:ℕ)) ∈ (summarize exOrders).map (fun r => (r.year, r.month)) ↔
        ((2024:ℤ), (3:ℕ)) ∈ exOrders.map monthKey) :=
  ⟨(c6_monthly_summary exOrders).2.2.2.2, (c6_monthly_summary exOrders).1,
    (c6_monthly_summary exOrders).2.2.1 (2024, 3)⟩
